import Mathlib

/-!
Shallow embedding of the AirBoost inbound webhook pipeline
(`src/api/endpoints/webhooks.ts`), the gatekeeper between the untrusted
network and the sync worker.  The handler is modelled as a pure function
from an environment (configuration, webhook secret, worker availability),
a clock reading, the mutable pipeline state (rate-limit timestamp,
idempotency ledger, event log) and the request, to a response paired with
the updated state.
-/

namespace AirBoost

/-- The parsed JSON notification envelope, as read by the handler.
`hasBase` records presence of the `base` key; `webhook` is `some w` when the
`webhook` key is present, where `w` is the optional `id` field inside it;
`timestamp` is the optional `timestamp` string field. -/
structure Body where
  hasBase : Bool
  webhook : Option (Option String)
  timestamp : Option String
deriving DecidableEq

/-- `isPing` from webhooks.ts: a body containing none of the keys
`base`, `webhook`, `timestamp` is an Airtable liveness ping. -/
def isPing (body : Body) : Bool :=
  !(body.hasBase || body.webhook.isSome || body.timestamp.isSome)

/-- JavaScript string interpolation of a possibly-undefined value:
`undefined` interpolates to the string "undefined". -/
def jsShow : Option String → String
  | none => "undefined"
  | some s => s

/-- `(body.webhook as Record<string, unknown>)?.id` : undefined when the
`webhook` key is absent or carries no `id`. -/
def webhookIdOf (body : Body) : Option String :=
  body.webhook.bind fun w => w

/-- The idempotency key template literal from webhooks.ts. -/
def idempotencyKey (body : Body) : String :=
  jsShow (webhookIdOf body) ++ ":" ++ jsShow body.timestamp

/-- Durable side effects of an accepted notification, in execution order:
marking the idempotency key in the metadata store and posting the payload
(identified here by its idempotency key) to the worker. -/
inductive Event
  | marked (key : String)
  | posted (key : String)
deriving DecidableEq

/-- Mutable pipeline state: the module-level `lastProcessedTime`
(epoch milliseconds, initially 0), the SQLite ledger of processed
idempotency keys, and the ordered log of durable events. -/
structure PipelineState where
  lastProcessedTime : Int
  processed : List String
  log : List Event
deriving DecidableEq

/-- Process start state: `let lastProcessedTime = 0`, empty ledger. -/
def initState : PipelineState := ⟨0, [], []⟩

/-- Environment of one request: configuration values, the stored webhook
secret (none when the metadata store has no webhook configuration), worker
availability, and the two external computations the handler calls.
`calculateWebhookHmac` — Modelled from the spec: the source file
`src/lib/airtable/webhook-hmac.ts` is not in the visible sources; per the
spec it computes the hex HMAC-SHA256 of the exact raw body under the
current webhook secret, kept abstract here as a function of secret and
body.  `parseDate` models `new Date(s).getTime()` with `none` for NaN. -/
structure Env where
  webhookConfig : Option String
  webhookTimestampWindow : Nat
  webhookRateLimit : Nat
  workerAvailable : Bool
  calculateWebhookHmac : String → String → String
  parseDate : String → Option Int

/-- One inbound HTTP request: the exact raw body text, the optional
`x-airtable-content-mac` header, and the result of `JSON.parse(rawBody)`
(`none` when parsing throws). -/
structure Req where
  rawBody : String
  signatureHeader : Option String
  parsed : Option Body

/-- Responses the handler can return, one per exit point of webhooks.ts. -/
inductive Response
  | invalidJson
  | pingOk
  | missingSignature
  | notConfigured
  | invalidSignature
  | expiredTimestamp
  | rateLimited (retryAfter : Nat)
  | alreadyProcessed
  | workerUnavailable
  | success
deriving DecidableEq

/-- UTF-32 code points of a string, standing in for the byte content of
`Buffer.from(s)`; like the UTF-8 encoding it is injective, which is all the
comparison logic depends on. -/
def strBytes (s : String) : List Nat :=
  s.toList.map Char.toNat

/-- Model of node's `timingSafeEqual` on two equal-length byte sequences,
with an explicit cost: it scans every byte pair unconditionally, so the
returned step count equals the number of pairs regardless of content. -/
def tseGo : List (Nat × Nat) → Bool × Nat
  | [] => (true, 0)
  | p :: ps =>
    let r := tseGo ps
    ((p.1 == p.2) && r.1, r.2 + 1)

/-- The signature comparison of webhooks.ts with its cost semantics:
`expectedBuf.length !== providedBuf.length || !timingSafeEqual(...)`.
A length mismatch answers false after 0 byte-comparison steps (the
short-circuiting `||`); equal lengths run the full constant-time scan. -/
def macCompare (expected provided : List Nat) : Bool × Nat :=
  if expected.length ≠ provided.length then (false, 0)
  else
    let r := tseGo (expected.zip provided)
    (r.1, r.2)

/-- Truthiness of a JS `string | undefined`: undefined and "" are falsy. -/
def truthy : Option String → Bool
  | none => false
  | some s => !(s == "")

/-- Stage 5 of webhooks.ts: the freshness check fires only when the
timestamp is truthy, and rejects when `new Date(ts).getTime()` is NaN or
its absolute distance from now exceeds the configured window (seconds). -/
def freshnessFails (env : Env) (now : Int) (body : Body) : Bool :=
  match body.timestamp with
  | none => false
  | some ts =>
    if ts = "" then false
    else
      match env.parseDate ts with
      | none => true
      | some webhookTime =>
        decide ((now - webhookTime).natAbs > env.webhookTimestampWindow * 1000)

/-- The `POST /webhooks/airtable/refresh` handler from webhooks.ts as a
state-passing function.  Stages in source order: JSON parse, ping
detection, signature-header presence, webhook configuration lookup, HMAC
comparison, timestamp freshness, rate limiting, idempotency lookup, worker
availability; on acceptance the rate-limit tracker is updated, the key is
marked processed, and the payload is posted to the worker. -/
def webhooks (env : Env) (now : Int) (st : PipelineState) (req : Req) :
    Response × PipelineState :=
  match req.parsed with
  | none => (.invalidJson, st)
  | some body =>
    if isPing body then (.pingOk, st)
    else if !truthy req.signatureHeader then (.missingSignature, st)
    else
      match env.webhookConfig with
      | none => (.notConfigured, st)
      | some macSecretBase64 =>
        if !(macCompare
              (strBytes ("hmac-sha256=" ++
                env.calculateWebhookHmac macSecretBase64 req.rawBody))
              (strBytes (jsShow req.signatureHeader))).1 then
          (.invalidSignature, st)
        else if freshnessFails env now body then (.expiredTimestamp, st)
        else if st.lastProcessedTime > 0 ∧
            now - st.lastProcessedTime < (env.webhookRateLimit : Int) * 1000 then
          (.rateLimited
            ((((env.webhookRateLimit : Int) * 1000 -
                (now - st.lastProcessedTime)).toNat + 999) / 1000), st)
        else if idempotencyKey body ∈ st.processed then (.alreadyProcessed, st)
        else if !env.workerAvailable then (.workerUnavailable, st)
        else
          (.success,
            { lastProcessedTime := now
              processed := idempotencyKey body :: st.processed
              log := st.log ++ [Event.marked (idempotencyKey body),
                Event.posted (idempotencyKey body)] })

/-! ### Concrete test fixtures -/

/-- A concrete HMAC instantiation for concrete runs (injective in the body
for a fixed secret, as a cryptographic MAC is assumed to be in practice). -/
def hmacFix : String → String → String := fun sec b => sec ++ "." ++ b

/-- A concrete date parser: only the literal "T" parses, to epoch 10000ms. -/
def parseDateFix : String → Option Int := fun s =>
  if s = "T" then some 10000 else none

/-- A concrete environment: configured secret "sec", 300s freshness window,
1s rate limit, live worker. -/
def envFix : Env :=
  { webhookConfig := some "sec"
    webhookTimestampWindow := 300
    webhookRateLimit := 1
    workerAvailable := true
    calculateWebhookHmac := hmacFix
    parseDate := parseDateFix }

/-- A concrete well-formed notification body. -/
def bodyFix : Body :=
  { hasBase := true, webhook := some (some "w1"), timestamp := some "T" }

/-- A concrete request for `bodyFix` with a correct signature header. -/
def reqFix : Req :=
  { rawBody := "B"
    signatureHeader := some ("hmac-sha256=" ++ hmacFix "sec" "B")
    parsed := some bodyFix }

/-! ### Comparator lemmas -/

/-- The constant-time scan's step count is the number of zipped pairs,
independent of byte content. -/
theorem tseGo_steps (ps : List (Nat × Nat)) : (tseGo ps).2 = ps.length := by
  induction ps with
  | nil => rfl
  | cons p ps ih => simp [tseGo, ih]

/-- The scan answers true exactly when every zipped pair matches. -/
theorem tseGo_true_iff (ps : List (Nat × Nat)) :
    (tseGo ps).1 = true ↔ ∀ p ∈ ps, p.1 = p.2 := by
  induction ps with
  | nil => simp [tseGo]
  | cons p ps ih =>
    simp [tseGo, Bool.and_eq_true, ih, beq_iff_eq]

theorem zip_forall_eq {a b : List Nat} (h : a.length = b.length) :
    (∀ p ∈ a.zip b, p.1 = p.2) ↔ a = b := by
  induction a generalizing b with
  | nil =>
    cases b with
    | nil => simp
    | cons y ys => simp at h
  | cons x xs ih =>
    cases b with
    | nil => simp at h
    | cons y ys =>
      simp only [List.length_cons, Nat.succ_inj] at h
      constructor
      · intro hp
        have hx : x = y := hp (x, y) (by simp [List.zip_cons_cons])
        have hxs : xs = ys := (ih h).mp fun p hm =>
          hp p (by simp [List.zip_cons_cons, hm])
        rw [hx, hxs]
      · intro he p hm
        cases he
        have := (ih h).mpr rfl
        rcases List.mem_cons.mp (by simpa [List.zip_cons_cons] using hm) with h1 | h2
        · rw [h1]
        · exact this p h2

/-- `macCompare` decides equality of the two byte sequences. -/
theorem macCompare_true_iff (a b : List Nat) :
    (macCompare a b).1 = true ↔ a = b := by
  unfold macCompare
  by_cases h : a.length = b.length
  · simp only [h, ne_eq, not_true_eq_false, if_false]
    rw [tseGo_true_iff, zip_forall_eq h]
  · simp only [ne_eq, h, not_false_eq_true, if_true]
    constructor
    · intro hf; exact absurd hf (by simp)
    · intro hab; exact absurd (congrArg List.length hab) h

theorem char_toNat_injective : Function.Injective Char.toNat := by
  intro a b h
  exact Char.eq_of_val_eq (UInt32.ext h)

theorem strBytes_injective : Function.Injective strBytes := by
  intro s t h
  unfold strBytes at h
  have hl : s.toList = t.toList :=
    List.map_injective_iff.mpr char_toNat_injective h
  exact String.ext hl

/-- The signature gate of webhooks.ts, applied to the encoded strings,
succeeds exactly when the two strings are equal. -/
theorem macCompare_strBytes_iff (e p : String) :
    (macCompare (strBytes e) (strBytes p)).1 = true ↔ e = p := by
  rw [macCompare_true_iff]
  exact ⟨fun h => strBytes_injective h, fun h => by rw [h]⟩

/-- Boolean normal form: the byte-level gate computes string equality. -/
theorem macCompare_strBytes (e p : String) :
    (macCompare (strBytes e) (strBytes p)).1 = (e == p) := by
  by_cases hep : e = p
  · subst hep
    rw [(macCompare_strBytes_iff e e).mpr rfl]
    simp
  · have h1 : (macCompare (strBytes e) (strBytes p)).1 = false :=
      Bool.eq_false_iff.mpr fun h => hep ((macCompare_strBytes_iff e p).mp h)
    rw [h1]
    exact (beq_eq_false_iff_ne.mpr hep).symm

/-! ### Event-log ordering -/

/-- Scan of an event log with the multiset of already-marked keys: every
`posted` event must name a key marked earlier in the log. -/
def guardedFromB (seen : List String) : List Event → Bool
  | [] => true
  | Event.marked k :: rest => guardedFromB (k :: seen) rest
  | Event.posted k :: rest => decide (k ∈ seen) && guardedFromB seen rest

/-- Keys marked by a log, newest first, on top of `seen`. -/
def marksOf (seen : List String) : List Event → List String
  | [] => seen
  | Event.marked k :: rest => marksOf (k :: seen) rest
  | Event.posted _ :: rest => marksOf seen rest

/-- A log is post-guarded when every worker post is preceded by the durable
mark of the same idempotency key. -/
def postGuarded (log : List Event) : Prop := guardedFromB [] log = true

theorem guardedFromB_append (seen : List String) (l m : List Event) :
    guardedFromB seen (l ++ m)
      = (guardedFromB seen l && guardedFromB (marksOf seen l) m) := by
  induction l generalizing seen with
  | nil => simp [guardedFromB, marksOf]
  | cons e rest ih =>
    cases e with
    | marked k => simp [guardedFromB, marksOf, ih]
    | posted k =>
      simp [guardedFromB, marksOf, ih, Bool.and_assoc]

theorem postGuarded_append_mark_post (l : List Event) (k : String)
    (h : postGuarded l) : postGuarded (l ++ [Event.marked k, Event.posted k]) := by
  unfold postGuarded at h ⊢
  rw [guardedFromB_append, h]
  simp [guardedFromB]

/-! ### Run shape lemmas -/

/-- Every run either accepts or leaves the pipeline state untouched. -/
theorem webhooks_success_or_unchanged (env : Env) (now : Int)
    (st : PipelineState) (req : Req) :
    (webhooks env now st req).1 = Response.success ∨
      (webhooks env now st req).2 = st := by
  unfold webhooks
  repeat' split
  all_goals first
    | (left; rfl)
    | (right; rfl)

/-- An accepting run produces exactly the state written by the accept
branch of webhooks.ts: rate-limit tracker set to now, the key pushed onto
the ledger, and the mark/post events appended in order. -/
theorem webhooks_success_shape (env : Env) (now : Int) (st : PipelineState)
    (req : Req) (body : Body) (hp : req.parsed = some body) :
    (webhooks env now st req).1 = Response.success →
    (webhooks env now st req).2 =
      ⟨now, idempotencyKey body :: st.processed,
        st.log ++ [Event.marked (idempotencyKey body),
          Event.posted (idempotencyKey body)]⟩ := by
  unfold webhooks
  simp only [hp]
  repeat' split
  all_goals intro hs
  all_goals first
    | exact Response.noConfusion hs
    | rfl

/-! ### Claim C8 -/

/-- C8: every pipeline rejection (malformed input, unauthorized, rate
limited, already processed, worker unavailable — i.e. every run whose
response is not the accepting `success`) returns its response with the
pipeline state unchanged: no idempotency marker is written and the
rate-limit last-accepted timestamp is not advanced. -/
theorem rejection_leaves_state_unchanged (env : Env) (now : Int)
    (st : PipelineState) (req : Req)
    (h : (webhooks env now st req).1 ≠ Response.success) :
    (webhooks env now st req).2 = st ∧
    (webhooks env now st req).2.processed = st.processed ∧
    (webhooks env now st req).2.lastProcessedTime = st.lastProcessedTime := by
  rcases webhooks_success_or_unchanged env now st req with hs | hu
  · exact absurd hs h
  · exact ⟨hu, by rw [hu], by rw [hu]⟩

/-- Witness for C8 at a concrete rejected (malformed JSON) request. -/
theorem rejection_leaves_state_unchanged_witness :
    (webhooks envFix 10000 initState ⟨"B", some "x", none⟩).2 = initState ∧
    (webhooks envFix 10000 initState ⟨"B", some "x", none⟩).2.processed
      = initState.processed ∧
    (webhooks envFix 10000 initState ⟨"B", some "x", none⟩).2.lastProcessedTime
      = initState.lastProcessedTime :=
  rejection_leaves_state_unchanged envFix 10000 initState
    ⟨"B", some "x", none⟩ (by decide)

/-! ### Claim C6 -/

/-- C6: a parsed body lacking all of the `base`, `webhook` and `timestamp`
fields is a liveness probe: it is acknowledged with success immediately and
the state is untouched, for every signature header (including a missing
one) and every webhook-secret configuration — no signature or other
security check is performed. -/
theorem ping_acknowledged_without_security (env : Env) (now : Int)
    (st : PipelineState) (req : Req) (body : Body)
    (hp : req.parsed = some body) (hping : isPing body = true) :
    webhooks env now st req = (Response.pingOk, st) := by
  unfold webhooks
  simp only [hp, hping]
  rfl

/-- Witness for C6: a `{}`-style body with no signature header at all. -/
theorem ping_acknowledged_without_security_witness :
    webhooks envFix 10000 initState ⟨"{}", none, some ⟨false, none, none⟩⟩
      = (Response.pingOk, initState) :=
  ping_acknowledged_without_security envFix 10000 initState
    ⟨"{}", none, some ⟨false, none, none⟩⟩ ⟨false, none, none⟩ rfl (by decide)

/-! ### Claim C5 -/

/-- C5: in every run that accepts a notification, the idempotency key is
durably marked strictly before the envelope is handed to the worker: the
event log grows by exactly `[marked key, posted key]` in that order, and
post-guardedness (every worker post preceded by the mark of its key) is
preserved. -/
theorem mark_precedes_forward (env : Env) (now : Int) (st : PipelineState)
    (req : Req) (body : Body) (hp : req.parsed = some body)
    (hs : (webhooks env now st req).1 = Response.success) :
    (webhooks env now st req).2.log
      = st.log ++ [Event.marked (idempotencyKey body),
          Event.posted (idempotencyKey body)] ∧
    (postGuarded st.log → postGuarded (webhooks env now st req).2.log) := by
  have h := webhooks_success_shape env now st req body hp hs
  refine ⟨by rw [h], fun hg => ?_⟩
  rw [h]
  exact postGuarded_append_mark_post _ _ hg

/-- Witness for C5 at the concrete accepting run of `reqFix`. -/
theorem mark_precedes_forward_witness :
    (webhooks envFix 10000 initState reqFix).2.log
      = initState.log ++ [Event.marked (idempotencyKey bodyFix),
          Event.posted (idempotencyKey bodyFix)] ∧
    (postGuarded initState.log →
      postGuarded (webhooks envFix 10000 initState reqFix).2.log) :=
  mark_precedes_forward envFix 10000 initState reqFix bodyFix rfl (by decide)

/-! ### Claim C10 -/

/-- With `lastProcessedTime = 0` the rate-limit branch cannot fire: its
guard requires a strictly positive last-accepted timestamp. -/
theorem no_rate_limit_of_zero (env : Env) (now : Int) (st : PipelineState)
    (req : Req) (h0 : st.lastProcessedTime = 0) (r : Nat) :
    (webhooks env now st req).1 ≠ Response.rateLimited r := by
  unfold webhooks
  repeat' split
  all_goals intro hs
  all_goals first
    | exact Response.noConfusion hs
    | omega

/-- A sequence of requests run through the pipeline, returning the
responses in order and the final state. -/
def runTrace : List (Env × Int × Req) → PipelineState → List Response × PipelineState
  | [], st => ([], st)
  | (env, now, req) :: rest, st =>
    ((webhooks env now st req).1 :: (runTrace rest (webhooks env now st req).2).1,
      (runTrace rest (webhooks env now st req).2).2)

theorem rate_limited_needs_prior_success_aux :
    ∀ (steps : List (Env × Int × Req)) (st : PipelineState),
      st.lastProcessedTime = 0 →
      ∀ pre r post,
        (runTrace steps st).1 = pre ++ Response.rateLimited r :: post →
        Response.success ∈ pre := by
  intro steps
  induction steps with
  | nil =>
    intro st h0 pre r post heq
    simp [runTrace] at heq
  | cons s rest ih =>
    obtain ⟨env, now, req⟩ := s
    intro st h0 pre r post heq
    simp only [runTrace, List.cons.injEq] at heq
    cases pre with
    | nil =>
      simp only [List.nil_append, List.cons.injEq] at heq
      exact absurd heq.1 (no_rate_limit_of_zero env now st req h0 r)
    | cons p pre2 =>
      simp only [List.cons_append, List.cons.injEq] at heq
      by_cases hsucc : (webhooks env now st req).1 = Response.success
      · have hps : p = Response.success := heq.1 ▸ hsucc
        rw [hps]
        exact List.mem_cons_self _ _
      · have hst : (webhooks env now st req).2 = st :=
          (webhooks_success_or_unchanged env now st req).resolve_left hsucc
        have h0a : (webhooks env now st req).2.lastProcessedTime = 0 := by
          rw [hst]; exact h0
        exact List.mem_cons_of_mem _ (ih _ h0a pre2 r post heq.2)

/-- C10: the first notification to reach the rate-limiting stage after
process start is never rate limited: the last-accepted timestamp starts at
0 and the rejection is guarded by its strict positivity, so along any run
from the start state a rate-limit rejection can only appear after an
earlier accepted (forwarded) notification. -/
theorem first_notification_never_rate_limited :
    initState.lastProcessedTime = 0 ∧
    (∀ (env : Env) (now : Int) (req : Req) (r : Nat),
      (webhooks env now initState req).1 ≠ Response.rateLimited r) ∧
    (∀ (steps : List (Env × Int × Req)) (pre : List Response) (r : Nat)
        (post : List Response),
      (runTrace steps initState).1 = pre ++ Response.rateLimited r :: post →
      Response.success ∈ pre) :=
  ⟨rfl,
    fun env now req r => no_rate_limit_of_zero env now initState req rfl r,
    fun steps => rate_limited_needs_prior_success_aux steps initState rfl⟩

/-- Witness for C10: the second conjunct at a concrete request, and the
third at a concrete two-request trace whose rate-limited response is
preceded by an accepted one. -/
theorem first_notification_never_rate_limited_witness :
    (webhooks envFix 10002 initState reqFix).1 ≠ Response.rateLimited 1 ∧
    Response.success ∈ [Response.success] :=
  ⟨first_notification_never_rate_limited.2.1 envFix 10002 reqFix 1,
    first_notification_never_rate_limited.2.2
      [(envFix, 10000, reqFix), (envFix, 10002, reqFix)]
      [Response.success] 1 [] (by decide)⟩

/-! ### Claim C1 -/

theorem hmac_prefix_ne_empty (x : String) : ("hmac-sha256=" ++ x) ≠ "" := by
  intro h
  have hlen := congrArg String.length h
  rw [String.length_append] at hlen
  have h12 : ("hmac-sha256=" : String).length = 12 := rfl
  have h0 : ("" : String).length = 0 := rfl
  omega

theorem string_append_cancel_left {p a b : String} (h : p ++ a = p ++ b) :
    a = b := by
  have hd : p.data ++ a.data = p.data ++ b.data := by
    have := congrArg String.data h
    simpa [String.data_append] using this
  exact String.ext (List.append_cancel_left hd)

/-- C1: for a non-probe notification under a configured secret, the
signature stage accepts exactly the header `"hmac-sha256=" ++ HMAC(secret,
raw received bytes)`: with that header the run cannot be rejected by the
signature stage, while a correct signature computed over any *other* body
(whose MAC differs from the received bytes' MAC) is rejected as
unauthorized with an invalid-signature response. -/
theorem hmac_signature_gate (env : Env) (now : Int) (st : PipelineState)
    (req : Req) (body : Body) (secret : String)
    (hp : req.parsed = some body) (hping : isPing body = false)
    (hcfg : env.webhookConfig = some secret) :
    (req.signatureHeader
        = some ("hmac-sha256=" ++ env.calculateWebhookHmac secret req.rawBody) →
      (webhooks env now st req).1 ≠ Response.missingSignature ∧
      (webhooks env now st req).1 ≠ Response.notConfigured ∧
      (webhooks env now st req).1 ≠ Response.invalidSignature) ∧
    (∀ other : String,
      env.calculateWebhookHmac secret other
        ≠ env.calculateWebhookHmac secret req.rawBody →
      req.signatureHeader
        = some ("hmac-sha256=" ++ env.calculateWebhookHmac secret other) →
      (webhooks env now st req).1 = Response.invalidSignature) := by
  constructor
  · intro hsig
    have hT : truthy req.signatureHeader = true := by
      rw [hsig]
      show (!(("hmac-sha256=" ++ env.calculateWebhookHmac secret req.rawBody)
        == "")) = true
      rw [beq_eq_false_iff_ne.mpr (hmac_prefix_ne_empty _)]
      rfl
    have hmacEq :
        (macCompare
          (strBytes ("hmac-sha256=" ++
            env.calculateWebhookHmac secret req.rawBody))
          (strBytes (jsShow req.signatureHeader))).1 = true := by
      rw [hsig]
      show (macCompare
        (strBytes ("hmac-sha256=" ++ env.calculateWebhookHmac secret req.rawBody))
        (strBytes ("hmac-sha256=" ++ env.calculateWebhookHmac secret req.rawBody))).1
        = true
      rw [macCompare_strBytes]
      exact beq_self_eq_true _
    simp only [webhooks, hp, hping, hT, hcfg, hmacEq, Bool.not_true]
    repeat' split
    all_goals
      refine ⟨?_, ?_, ?_⟩ <;> intro hx <;> exact Response.noConfusion hx
  · intro other hneq hsig
    have hT : truthy req.signatureHeader = true := by
      rw [hsig]
      show (!(("hmac-sha256=" ++ env.calculateWebhookHmac secret other)
        == "")) = true
      rw [beq_eq_false_iff_ne.mpr (hmac_prefix_ne_empty _)]
      rfl
    have hmacNe :
        (macCompare
          (strBytes ("hmac-sha256=" ++
            env.calculateWebhookHmac secret req.rawBody))
          (strBytes (jsShow req.signatureHeader))).1 = false := by
      rw [hsig]
      show (macCompare
        (strBytes ("hmac-sha256=" ++ env.calculateWebhookHmac secret req.rawBody))
        (strBytes ("hmac-sha256=" ++ env.calculateWebhookHmac secret other))).1
        = false
      rw [macCompare_strBytes]
      refine beq_eq_false_iff_ne.mpr fun hcontra => ?_
      exact hneq (string_append_cancel_left hcontra).symm
    simp only [webhooks, hp, hping, hT, hcfg, hmacNe, Bool.not_true,
      Bool.not_false]
    rfl

/-- A request whose header is a correct MAC over body "C", sent with raw
bytes "B". -/
def reqWrongSig : Req :=
  { rawBody := "B"
    signatureHeader := some ("hmac-sha256=" ++ hmacFix "sec" "C")
    parsed := some bodyFix }

/-- Witness for C1: the exact-bytes signature passes the gate; the same
construction over different bytes is rejected as invalid. -/
theorem hmac_signature_gate_witness :
    ((webhooks envFix 10000 initState reqFix).1 ≠ Response.missingSignature ∧
      (webhooks envFix 10000 initState reqFix).1 ≠ Response.notConfigured ∧
      (webhooks envFix 10000 initState reqFix).1 ≠ Response.invalidSignature) ∧
    (webhooks envFix 10000 initState reqWrongSig).1 = Response.invalidSignature :=
  ⟨(hmac_signature_gate envFix 10000 initState reqFix bodyFix "sec"
      rfl (by decide) rfl).1 rfl,
    (hmac_signature_gate envFix 10000 initState reqWrongSig bodyFix "sec"
      rfl (by decide) rfl).2 "C" (by decide) rfl⟩

/-! ### Claim C7 -/

/-- An expired-timestamp rejection can only come from the freshness stage:
the run's body exists and its freshness check failed. -/
theorem expired_implies_fresh (env : Env) (now : Int) (st : PipelineState)
    (req : Req)
    (hs : (webhooks env now st req).1 = Response.expiredTimestamp) :
    ∃ body, req.parsed = some body ∧ freshnessFails env now body = true := by
  revert hs
  unfold webhooks
  repeat' split
  all_goals intro hs
  all_goals first
    | exact Response.noConfusion hs
    | exact ⟨_, by assumption, by assumption⟩

/-- C7 (amended): for a notification that carries a *non-empty* timestamp
string and a correct signature under the configured secret, the run is
rejected with an expired-timestamp response exactly when the timestamp is
unparseable or its absolute distance from now exceeds the configured
window; a notification whose envelope has no timestamp field — or, per the
handler's truthiness test, an empty-string one — is never rejected by the
freshness stage. -/
theorem freshness_window_amended (env : Env) (now : Int) (st : PipelineState)
    (req : Req) (body : Body) (secret : String)
    (hp : req.parsed = some body) (hcfg : env.webhookConfig = some secret)
    (hsig : req.signatureHeader
      = some ("hmac-sha256=" ++ env.calculateWebhookHmac secret req.rawBody)) :
    (∀ ts, body.timestamp = some ts → ts ≠ "" →
      ((webhooks env now st req).1 = Response.expiredTimestamp ↔
        env.parseDate ts = none ∨
          ∃ t, env.parseDate ts = some t ∧
            (now - t).natAbs > env.webhookTimestampWindow * 1000)) ∧
    ((body.timestamp = none ∨ body.timestamp = some "") →
      (webhooks env now st req).1 ≠ Response.expiredTimestamp) := by
  constructor
  · intro ts hts htsne
    have hping : isPing body = false := by simp [isPing, hts]
    constructor
    · intro hs
      obtain ⟨body2, hp2, hfresh⟩ := expired_implies_fresh env now st req hs
      rw [hp] at hp2
      cases Option.some.inj hp2
      simp only [freshnessFails, hts, if_neg htsne] at hfresh
      rcases hpd : env.parseDate ts with _ | t
      · exact Or.inl rfl
      · rw [hpd] at hfresh
        exact Or.inr ⟨t, rfl, of_decide_eq_true hfresh⟩
    · intro hrhs
      have hfresh : freshnessFails env now body = true := by
        simp only [freshnessFails, hts, if_neg htsne]
        rcases hpd : env.parseDate ts with _ | t
        · rfl
        · rcases hrhs with hnone | ⟨t2, ht2, hgt⟩
          · exact absurd (hpd ▸ hnone) (by simp)
          · rw [hpd] at ht2
            cases Option.some.inj ht2
            exact decide_eq_true hgt
      have hT : truthy req.signatureHeader = true := by
        rw [hsig]
        show (!(("hmac-sha256=" ++ env.calculateWebhookHmac secret req.rawBody)
          == "")) = true
        rw [beq_eq_false_iff_ne.mpr (hmac_prefix_ne_empty _)]
        rfl
      have hmacEq :
          (macCompare
            (strBytes ("hmac-sha256=" ++
              env.calculateWebhookHmac secret req.rawBody))
            (strBytes (jsShow req.signatureHeader))).1 = true := by
        rw [hsig]
        show (macCompare
          (strBytes ("hmac-sha256=" ++ env.calculateWebhookHmac secret req.rawBody))
          (strBytes ("hmac-sha256=" ++ env.calculateWebhookHmac secret req.rawBody))).1
          = true
        rw [macCompare_strBytes]
        exact beq_self_eq_true _
      simp only [webhooks, hp, hping, hT, hcfg, hmacEq, Bool.not_true, hfresh]
      rfl
  · intro hnots hs
    obtain ⟨body2, hp2, hfresh⟩ := expired_implies_fresh env now st req hs
    rw [hp] at hp2
    cases Option.some.inj hp2
    rcases hnots with hnone | hempty
    · simp only [freshnessFails, hnone] at hfresh
      exact Bool.false_ne_true hfresh
    · simp only [freshnessFails, hempty] at hfresh
      simp at hfresh

/-- Concrete body carrying an empty-string timestamp: present in the
envelope yet falsy to the handler's `if (timestamp)` test. -/
def bodyEmptyTs : Body :=
  { hasBase := false, webhook := some (some "w2"), timestamp := some "" }

/-- Request for `bodyEmptyTs` with a correct signature. -/
def reqEmptyTs : Req :=
  { rawBody := "B"
    signatureHeader := some ("hmac-sha256=" ++ hmacFix "sec" "B")
    parsed := some bodyEmptyTs }

/-- Counterexample to C7 as stated: this notification carries a timestamp
(the field is present, value `""`), the timestamp is unparseable
(`new Date("")` is NaN in the model's `parseDate`), yet the pipeline does
not reject it — the run is accepted outright, because the handler's JS
truthiness test skips the freshness check for falsy strings. -/
theorem empty_timestamp_not_rejected_counterexample :
    bodyEmptyTs.timestamp = some "" ∧
    envFix.parseDate "" = none ∧
    (webhooks envFix 10000 initState reqEmptyTs).1 = Response.success ∧
    (webhooks envFix 10000 initState reqEmptyTs).1 ≠ Response.expiredTimestamp := by
  decide

/-- Witness for C7 (amended) at a stale concrete timestamp: parseable but
600000ms away from now with a 300s window, hence rejected. -/
theorem freshness_window_amended_witness :
    ((webhooks envFix 700000 initState reqFix).1 = Response.expiredTimestamp ↔
      envFix.parseDate "T" = none ∨
        ∃ t, envFix.parseDate "T" = some t ∧
          ((700000 : Int) - t).natAbs > envFix.webhookTimestampWindow * 1000) ∧
    (webhooks envFix 10000 initState reqEmptyTs).1 ≠ Response.expiredTimestamp :=
  ⟨(freshness_window_amended envFix 700000 initState reqFix bodyFix "sec"
      rfl rfl rfl).1 "T" rfl (by decide),
    (freshness_window_amended envFix 10000 initState reqEmptyTs bodyEmptyTs "sec"
      rfl rfl rfl).2 (Or.inr rfl)⟩

/-! ### Claim C9 -/

/-- C9 (amended): a notification arriving strictly before
`lastAccepted + rateLimitInterval` — having passed parse, ping, signature
and freshness — is rejected rate-limited, with a retry-after hint equal to
the remaining time until the interval elapses rounded *up to whole
seconds* (`Math.ceil((rateLimitMs - elapsed) / 1000)`), not to the raw
remaining milliseconds: the hint in milliseconds over-approximates the
remaining time by less than one second. -/
theorem rate_limit_retry_after (env : Env) (now : Int) (st : PipelineState)
    (req : Req) (body : Body) (secret : String)
    (hp : req.parsed = some body) (hping : isPing body = false)
    (hcfg : env.webhookConfig = some secret)
    (hsig : req.signatureHeader
      = some ("hmac-sha256=" ++ env.calculateWebhookHmac secret req.rawBody))
    (hfresh : freshnessFails env now body = false)
    (hlast : st.lastProcessedTime > 0)
    (hwin : now - st.lastProcessedTime < (env.webhookRateLimit : Int) * 1000) :
    (webhooks env now st req).1 =
      Response.rateLimited
        ((((env.webhookRateLimit : Int) * 1000 -
            (now - st.lastProcessedTime)).toNat + 999) / 1000) ∧
    ((env.webhookRateLimit : Int) * 1000 - (now - st.lastProcessedTime)).toNat
      ≤ 1000 * (((((env.webhookRateLimit : Int) * 1000 -
            (now - st.lastProcessedTime)).toNat + 999) / 1000)) ∧
    1000 * (((((env.webhookRateLimit : Int) * 1000 -
            (now - st.lastProcessedTime)).toNat + 999) / 1000))
      < ((env.webhookRateLimit : Int) * 1000 - (now - st.lastProcessedTime)).toNat
          + 1000 := by
  refine ⟨?_, ?_, ?_⟩
  · have hT : truthy req.signatureHeader = true := by
      rw [hsig]
      show (!(("hmac-sha256=" ++ env.calculateWebhookHmac secret req.rawBody)
        == "")) = true
      rw [beq_eq_false_iff_ne.mpr (hmac_prefix_ne_empty _)]
      rfl
    have hmacEq :
        (macCompare
          (strBytes ("hmac-sha256=" ++
            env.calculateWebhookHmac secret req.rawBody))
          (strBytes (jsShow req.signatureHeader))).1 = true := by
      rw [hsig]
      show (macCompare
        (strBytes ("hmac-sha256=" ++ env.calculateWebhookHmac secret req.rawBody))
        (strBytes ("hmac-sha256=" ++ env.calculateWebhookHmac secret req.rawBody))).1
        = true
      rw [macCompare_strBytes]
      exact beq_self_eq_true _
    simp [webhooks, hp, hping, hT, hcfg, hmacEq, hfresh, hlast, hwin]
  · generalize ((env.webhookRateLimit : Int) * 1000 -
      (now - st.lastProcessedTime)).toNat = rem
    omega
  · generalize ((env.webhookRateLimit : Int) * 1000 -
      (now - st.lastProcessedTime)).toNat = rem
    omega

/-- Counterexample to C9 as stated: a notification 2ms after an accepted
one, with a 1-second (1000ms) interval.  The remaining time until the
interval elapses is 998ms, but the computed retry-after hint is `1`
(one whole second): it equals neither 998 nor, converted to milliseconds,
998 — the hint is the seconds-ceiling of the remaining time, not the
remaining time itself. -/
theorem retry_after_not_remaining_counterexample :
    (webhooks envFix 10002 (webhooks envFix 10000 initState reqFix).2 reqFix).1
      = Response.rateLimited 1 ∧
    (envFix.webhookRateLimit : Int) * 1000 - ((10002 : Int) - 10000) = 998 ∧
    (1 : Nat) ≠ 998 ∧ (1 : Nat) * 1000 ≠ 998 := by
  decide

/-- Witness for C9 (amended) at the same concrete scenario: retry-after 1s
for a 998ms remainder, with 998 ≤ 1000·1 < 998 + 1000. -/
theorem rate_limit_retry_after_witness :
    (webhooks envFix 10002 (webhooks envFix 10000 initState reqFix).2 reqFix).1
      = Response.rateLimited
          ((((envFix.webhookRateLimit : Int) * 1000 -
              ((10002 : Int) -
                (webhooks envFix 10000 initState reqFix).2.lastProcessedTime)).toNat
            + 999) / 1000) ∧
    ((envFix.webhookRateLimit : Int) * 1000 -
        ((10002 : Int) -
          (webhooks envFix 10000 initState reqFix).2.lastProcessedTime)).toNat
      ≤ 1000 * (((((envFix.webhookRateLimit : Int) * 1000 -
            ((10002 : Int) -
              (webhooks envFix 10000 initState reqFix).2.lastProcessedTime)).toNat
          + 999) / 1000)) ∧
    1000 * (((((envFix.webhookRateLimit : Int) * 1000 -
          ((10002 : Int) -
            (webhooks envFix 10000 initState reqFix).2.lastProcessedTime)).toNat
        + 999) / 1000))
      < ((envFix.webhookRateLimit : Int) * 1000 -
          ((10002 : Int) -
            (webhooks envFix 10000 initState reqFix).2.lastProcessedTime)).toNat
          + 1000 :=
  rate_limit_retry_after envFix 10002 (webhooks envFix 10000 initState reqFix).2
    reqFix bodyFix "sec" rfl (by decide) rfl rfl (by decide) (by decide) (by decide)

/-! ### Claim C2 -/

/-- C2 (amended): for notifications with identical (webhook identifier,
timestamp) — hence identical idempotency key — only the first is forwarded
to the worker.  Once the key is in the ledger a later identical
notification is never accepted and leaves the state (ledger, event log,
rate-limit tracker) unchanged, so the worker receives no second message
for that key; if that duplicate additionally passes the signature,
freshness and rate-limiting stages it is acknowledged as
already-processed.  An accepting first run always places its key in the
ledger. -/
theorem duplicate_never_reforwarded (env : Env) (now : Int)
    (st : PipelineState) (req : Req) (body : Body)
    (hp : req.parsed = some body) :
    (idempotencyKey body ∈ st.processed →
      (webhooks env now st req).1 ≠ Response.success ∧
      (webhooks env now st req).2 = st) ∧
    (idempotencyKey body ∈ st.processed →
      ∀ secret, env.webhookConfig = some secret →
      req.signatureHeader
        = some ("hmac-sha256=" ++ env.calculateWebhookHmac secret req.rawBody) →
      isPing body = false →
      freshnessFails env now body = false →
      ¬(st.lastProcessedTime > 0 ∧
          now - st.lastProcessedTime < (env.webhookRateLimit : Int) * 1000) →
      (webhooks env now st req).1 = Response.alreadyProcessed) ∧
    ((webhooks env now st req).1 = Response.success →
      idempotencyKey body ∈ (webhooks env now st req).2.processed) := by
  refine ⟨fun hdup => ⟨?_, ?_⟩, fun hdup secret hcfg hsig hping hfresh hrate => ?_,
    fun hs => ?_⟩
  · intro hs
    revert hs
    unfold webhooks
    simp only [hp]
    repeat' split
    all_goals intro hs
    all_goals exact Response.noConfusion hs
  · rcases webhooks_success_or_unchanged env now st req with hs | hu
    · exfalso
      revert hs
      unfold webhooks
      simp only [hp]
      repeat' split
      all_goals intro hs
      all_goals exact Response.noConfusion hs
    · exact hu
  · have hT : truthy req.signatureHeader = true := by
      rw [hsig]
      show (!(("hmac-sha256=" ++ env.calculateWebhookHmac secret req.rawBody)
        == "")) = true
      rw [beq_eq_false_iff_ne.mpr (hmac_prefix_ne_empty _)]
      rfl
    have hmacEq :
        (macCompare
          (strBytes ("hmac-sha256=" ++
            env.calculateWebhookHmac secret req.rawBody))
          (strBytes (jsShow req.signatureHeader))).1 = true := by
      rw [hsig]
      show (macCompare
        (strBytes ("hmac-sha256=" ++ env.calculateWebhookHmac secret req.rawBody))
        (strBytes ("hmac-sha256=" ++ env.calculateWebhookHmac secret req.rawBody))).1
        = true
      rw [macCompare_strBytes]
      exact beq_self_eq_true _
    simp [webhooks, hp, hping, hT, hcfg, hmacEq, hfresh, hrate, hdup]
  · have h := webhooks_success_shape env now st req body hp hs
    rw [h]
    exact List.mem_cons_self _ _

/-- Counterexample to C2 as stated: a second notification with the same
(webhook id, timestamp) arriving 2ms after the accepted first one, under a
1s rate-limit interval, is rejected rate-limited (HTTP 429 with a retry
hint) — it is *not* acknowledged as already-processed, because the
rate-limiting stage runs before the idempotency stage. -/
theorem duplicate_rate_limited_counterexample :
    idempotencyKey bodyFix ∈ (webhooks envFix 10000 initState reqFix).2.processed ∧
    (webhooks envFix 10002 (webhooks envFix 10000 initState reqFix).2 reqFix).1
      = Response.rateLimited 1 ∧
    (webhooks envFix 10002 (webhooks envFix 10000 initState reqFix).2 reqFix).1
      ≠ Response.alreadyProcessed := by
  decide

/-- Witness for C2 (amended): after the accepting run of `reqFix`, an
identical notification arriving outside the rate window (100s later) is
acknowledged as already-processed and changes nothing. -/
theorem duplicate_never_reforwarded_witness :
    ((webhooks envFix 110000 (webhooks envFix 10000 initState reqFix).2 reqFix).1
        ≠ Response.success ∧
      (webhooks envFix 110000 (webhooks envFix 10000 initState reqFix).2 reqFix).2
        = (webhooks envFix 10000 initState reqFix).2) ∧
    (webhooks envFix 110000 (webhooks envFix 10000 initState reqFix).2 reqFix).1
      = Response.alreadyProcessed :=
  ⟨(duplicate_never_reforwarded envFix 110000
      (webhooks envFix 10000 initState reqFix).2 reqFix bodyFix rfl).1
      (by decide),
    (duplicate_never_reforwarded envFix 110000
      (webhooks envFix 10000 initState reqFix).2 reqFix bodyFix rfl).2.1
      (by decide) "sec" rfl rfl (by decide) (by decide) (by decide)⟩

/-! ### Claim C3 -/

/-- C3 (amended): the signature comparison *does* short-circuit on a length
difference — zero constant-time comparison steps are executed then — but
its timing never depends on where a mismatch occurs: the step count is a
function of the two lengths alone (full scan of the expected length when
lengths agree, 0 otherwise), identical for any contents of the same
lengths, and the comparison decides exact equality of the byte
sequences. -/
theorem mac_compare_timing (a b : List Nat) :
    ((macCompare a b).2 = if a.length = b.length then a.length else 0) ∧
    (∀ c d : List Nat, c.length = a.length → d.length = b.length →
      (macCompare c d).2 = (macCompare a b).2) ∧
    ((macCompare a b).1 = true ↔ a = b) := by
  have hcost : ∀ x y : List Nat,
      (macCompare x y).2 = if x.length = y.length then x.length else 0 := by
    intro x y
    by_cases h : x.length = y.length
    · simp [macCompare, h, tseGo_steps, List.length_zip]
    · simp [macCompare, h]
  refine ⟨hcost a b, fun c d hc hd => ?_, macCompare_true_iff a b⟩
  rw [hcost c d, hcost a b, hc, hd]

/-- Counterexample to C3 as stated: comparing a 1-byte expected signature
with a 2-byte provided one answers false after 0 constant-time comparison
steps — the constant-time compare path is skipped entirely on a length
difference — whereas the equal-length comparison of the same expected
byte runs 1 step. -/
theorem length_shortcircuit_counterexample :
    macCompare [0] [0, 0] = (false, 0) ∧
    (macCompare [0] [0]).2 = 1 ∧
    (0 : Nat) ≠ 1 := by
  decide

/-- Witness for C3 (amended): equal-length inputs that differ in the first
byte and ones that differ in the last byte take the same 2 steps. -/
theorem mac_compare_timing_witness :
    (macCompare [1, 2] [1, 3]).2 = 2 ∧
    (macCompare [9, 2] [5, 2]).2 = (macCompare [1, 2] [1, 3]).2 :=
  ⟨((mac_compare_timing [1, 2] [1, 3]).1).trans (by decide),
    (mac_compare_timing [1, 2] [1, 3]).2.1 [9, 2] [5, 2] (by decide) (by decide)⟩

/-! ### Claim C4 -/

/-- Modelled from the spec (§4.3), stage 1: parse gate. -/
def parseGate (req : Req) : Option Response :=
  if req.parsed = none then some Response.invalidJson else none

/-- Modelled from the spec (§4.3), stage 2: liveness-probe gate. -/
def probeGate (req : Req) : Option Response :=
  match req.parsed with
  | none => none
  | some b => if isPing b then some Response.pingOk else none

/-- Modelled from the spec (§4.3), stage 3: signature-verification gate
(missing header, missing secret configuration, or MAC mismatch). -/
def signatureGate (env : Env) (req : Req) : Option Response :=
  if !truthy req.signatureHeader then some Response.missingSignature
  else
    match env.webhookConfig with
    | none => some Response.notConfigured
    | some secret =>
      if "hmac-sha256=" ++ env.calculateWebhookHmac secret req.rawBody
          = jsShow req.signatureHeader then none
      else some Response.invalidSignature

/-- Modelled from the spec (§4.3), stage 4: freshness-window gate. -/
def freshnessGate (env : Env) (now : Int) (req : Req) : Option Response :=
  match req.parsed with
  | none => none
  | some b =>
    if freshnessFails env now b then some Response.expiredTimestamp else none

/-- Modelled from the spec (§4.3), stage 5: rate-limiting gate with its
retry-after hint. -/
def rateLimitGate (env : Env) (now : Int) (st : PipelineState) :
    Option Response :=
  if st.lastProcessedTime > 0 ∧
      now - st.lastProcessedTime < (env.webhookRateLimit : Int) * 1000 then
    some (Response.rateLimited
      ((((env.webhookRateLimit : Int) * 1000 -
          (now - st.lastProcessedTime)).toNat + 999) / 1000))
  else none

/-- Modelled from the spec (§4.3), stage 6: idempotency gate. -/
def idempotencyGate (st : PipelineState) (req : Req) : Option Response :=
  match req.parsed with
  | none => none
  | some b =>
    if idempotencyKey b ∈ st.processed then some Response.alreadyProcessed
    else none

/-- Modelled from the spec (§4.3), stage 7: forward gate — the hand-off
fails when the worker is unavailable. -/
def forwardGate (env : Env) : Option Response :=
  if !env.workerAvailable then some Response.workerUnavailable else none

/-- Modelled from the spec (§4.3): the pipeline as an ordered chain of
stage gates — parse, probe, signature, freshness, rate limit, idempotency,
forward — where the first stage to fire decides the response and later
stages are never consulted, and a run surviving every gate succeeds. -/
def stageChain (env : Env) (now : Int) (st : PipelineState) (req : Req) :
    Response :=
  (([parseGate req, probeGate req, signatureGate env req,
      freshnessGate env now req, rateLimitGate env now st,
      idempotencyGate st req, forwardGate env].findSome? id).getD
    Response.success)

/-- C4: the handler's response equals the spec's ordered short-circuiting
stage chain on every input, and an unparseable payload is rejected with
invalid-JSON and no later stage executed: the state (in particular the
idempotency ledger) is byte-for-byte unchanged. -/
theorem pipeline_stage_order (env : Env) (now : Int) (st : PipelineState)
    (req : Req) :
    ((webhooks env now st req).1 = stageChain env now st req) ∧
    (req.parsed = none → webhooks env now st req = (Response.invalidJson, st)) := by
  constructor
  · rcases hp : req.parsed with _ | body
    · simp [webhooks, stageChain, parseGate, probeGate, signatureGate,
        freshnessGate, rateLimitGate, idempotencyGate, forwardGate,
        List.findSome?, hp]
    · by_cases h1 : isPing body = true
      · simp [webhooks, stageChain, parseGate, probeGate, signatureGate,
          freshnessGate, rateLimitGate, idempotencyGate, forwardGate,
          List.findSome?, hp, h1]
      · rcases hT : truthy req.signatureHeader with _ | _
        · simp [webhooks, stageChain, parseGate, probeGate, signatureGate,
            freshnessGate, rateLimitGate, idempotencyGate, forwardGate,
            List.findSome?, hp, h1, hT]
        · rcases hcfg : env.webhookConfig with _ | secret
          · simp [webhooks, stageChain, parseGate, probeGate, signatureGate,
              freshnessGate, rateLimitGate, idempotencyGate, forwardGate,
              List.findSome?, hp, h1, hT, hcfg]
          · by_cases h3 : "hmac-sha256=" ++ env.calculateWebhookHmac secret req.rawBody
                = jsShow req.signatureHeader
            · have hb :
                  (macCompare
                    (strBytes ("hmac-sha256=" ++
                      env.calculateWebhookHmac secret req.rawBody))
                    (strBytes (jsShow req.signatureHeader))).1 = true := by
                rw [macCompare_strBytes]
                exact beq_iff_eq.mpr h3
              have hg : signatureGate env req = none := by
                simp [signatureGate, hT, hcfg, h3]
              by_cases h4 : freshnessFails env now body = true
              · simp [webhooks, stageChain, parseGate, probeGate,
                  freshnessGate, rateLimitGate, idempotencyGate, forwardGate,
                  List.findSome?, hp, h1, hT, hcfg, hb, hg, h4]
              · by_cases h5 : st.lastProcessedTime > 0 ∧
                    now - st.lastProcessedTime < (env.webhookRateLimit : Int) * 1000
                · simp [webhooks, stageChain, parseGate, probeGate,
                    freshnessGate, rateLimitGate,
                    idempotencyGate, forwardGate, List.findSome?, hp, h1, hT,
                    hcfg, hb, hg, h4, h5]
                · by_cases h6 : idempotencyKey body ∈ st.processed
                  · simp [webhooks, stageChain, parseGate, probeGate,
                      freshnessGate, rateLimitGate,
                      idempotencyGate, forwardGate, List.findSome?, hp, h1,
                      hT, hcfg, hb, hg, h4, h5, h6]
                  · rcases h7 : env.workerAvailable with _ | _
                    · simp [webhooks, stageChain, parseGate, probeGate,
                        freshnessGate, rateLimitGate,
                        idempotencyGate, forwardGate, List.findSome?, hp, h1,
                        hT, hcfg, hb, hg, h4, h5, h6, h7]
                    · simp [webhooks, stageChain, parseGate, probeGate,
                        freshnessGate, rateLimitGate,
                        idempotencyGate, forwardGate, List.findSome?, hp, h1,
                        hT, hcfg, hb, hg, h4, h5, h6, h7]
            · have hb :
                  (macCompare
                    (strBytes ("hmac-sha256=" ++
                      env.calculateWebhookHmac secret req.rawBody))
                    (strBytes (jsShow req.signatureHeader))).1 = false := by
                rw [macCompare_strBytes]
                exact beq_eq_false_iff_ne.mpr h3
              have hg : signatureGate env req
                  = some Response.invalidSignature := by
                simp [signatureGate, hT, hcfg, h3]
              simp [webhooks, stageChain, parseGate, probeGate,
                freshnessGate, rateLimitGate, idempotencyGate, forwardGate,
                List.findSome?, hp, h1, hT, hcfg, hb, hg]
  · intro hp
    unfold webhooks
    rw [hp]

/-- Witness for C4 at concrete runs: the stage-chain equality at the
accepting request, and the malformed-payload short-circuit. -/
theorem pipeline_stage_order_witness :
    ((webhooks envFix 10000 initState reqFix).1
        = stageChain envFix 10000 initState reqFix) ∧
    webhooks envFix 10000 initState ⟨"notjson", some "x", none⟩
      = (Response.invalidJson, initState) :=
  ⟨(pipeline_stage_order envFix 10000 initState reqFix).1,
    (pipeline_stage_order envFix 10000 initState ⟨"notjson", some "x", none⟩).2 rfl⟩

end AirBoost
